import Mathlib

/-!
Shallow embedding of `code_reviewer.py` from the empathetic-code-reviewer
repository, together with theorems checking the specification's claims
against it.

The embedding models:
* Python string helpers (`in`, `str.lower`, `str.strip`, `json.dumps`,
  `list(dict.fromkeys(...))`, `max(..., key=...)`) as executable Lean
  functions over `String`/`List`;
* the `EmpathticCodeReviewer` class, whose OpenAI client is modelled as a
  function from (system prompt, user prompt) to `Except String String`
  (`.error e` models the API call raising an exception with message `e`,
  `.ok content` models a successful chat completion whose first choice has
  message content `content`);
* raised Python exceptions as `Except.error` carrying the exception message.
-/

/-- Python's substring test `needle in haystack` for strings. -/
def strContains (needle haystack : String) : Bool :=
  decide (needle.toList <:+: haystack.toList)

/-- Python's `str.lower()`, modelled as mapping `Char.toLower` over the
characters of the string. -/
def pyLower (s : String) : String :=
  String.mk (s.data.map Char.toLower)

/-- Python's `str.strip()`: remove leading and trailing whitespace. -/
def pyStrip (s : String) : String :=
  String.mk (((s.data.dropWhile Char.isWhitespace).reverse.dropWhile
    Char.isWhitespace).reverse)

/-- Helper for `pyDedup`: iterate over the list, skipping elements already
seen, exactly as dictionary key insertion does. -/
def pyDedupAux : List String → List String → List String
  | _, [] => []
  | seen, x :: xs =>
    if seen.contains x then pyDedupAux seen xs
    else x :: pyDedupAux (seen ++ [x]) xs

/-- Python's `list(dict.fromkeys(xs))`: remove duplicates keeping the first
occurrence of each element, preserving order. -/
def pyDedup (xs : List String) : List String :=
  pyDedupAux [] xs

/-- Helper for `pyMax`: fold over the remaining elements keeping the current
best, replacing it only when a strictly greater key is found.  This is
exactly the iteration CPython's `max(iterable, key=key)` performs, so ties
keep the earliest element. -/
def pyMaxAux (key : String → Nat) (best : String) : List String → String
  | [] => best
  | y :: ys => pyMaxAux key (if key y > key best then y else best) ys

/-- Python's `max(xs, key=key)` on a list: `none` models the `ValueError`
raised on an empty sequence. -/
def pyMax (key : String → Nat) : List String → Option String
  | [] => none
  | x :: xs => some (pyMaxAux key x xs)

/-- Hexadecimal digit (lowercase) used by `json.dumps` escapes. -/
def jsonHexDigit (n : Nat) : Char :=
  if n < 10 then Char.ofNat (48 + n) else Char.ofNat (87 + n)

/-- Four-digit lowercase hexadecimal rendering used in `\uXXXX` escapes. -/
def jsonHex4 (n : Nat) : String :=
  String.mk [jsonHexDigit (n / 4096 % 16), jsonHexDigit (n / 256 % 16),
    jsonHexDigit (n / 16 % 16), jsonHexDigit (n % 16)]

/-- Escaping of a single character in a JSON string literal, as performed by
Python's `json.dumps` with its default `ensure_ascii=True`: printable ASCII
other than quote and backslash is kept, the usual short escapes are used,
and everything else becomes `\uXXXX` (a surrogate pair beyond the BMP). -/
def jsonEscapeChar (c : Char) : String :=
  if c = '"' then "\\\""
  else if c = '\\' then "\\\\"
  else if c = '\n' then "\\n"
  else if c = '\t' then "\\t"
  else if c = '\r' then "\\r"
  else if c.toNat = 8 then "\\b"
  else if c.toNat = 12 then "\\f"
  else if 32 ≤ c.toNat ∧ c.toNat ≤ 126 then String.mk [c]
  else if c.toNat < 65536 then "\\u" ++ jsonHex4 c.toNat
  else
    "\\u" ++ jsonHex4 (55296 + (c.toNat - 65536) / 1024) ++
      "\\u" ++ jsonHex4 (56320 + (c.toNat - 65536) % 1024)

/-- A JSON string literal for `s`, as produced by `json.dumps`. -/
def jsonDumpString (s : String) : String :=
  "\"" ++ String.join (s.data.map jsonEscapeChar) ++ "\""

/-- Python's `json.dumps(comments, indent=2)` for a list of strings. -/
def jsonDumpsIndent2 (comments : List String) : String :=
  if comments = [] then "[]"
  else "[\n  " ++ String.intercalate ",\n  " (comments.map jsonDumpString) ++ "\n]"

/-- The `harsh_indicators` keyword list of `_assess_comment_severity`. -/
def harsh_indicators : List String :=
  ["bad", "terrible", "awful", "stupid", "dumb", "wrong", "never",
   "always", "completely", "totally", "absolutely", "obviously"]

/-- The `neutral_indicators` keyword list of `_assess_comment_severity`. -/
def neutral_indicators : List String :=
  ["could", "might", "consider", "suggest", "perhaps", "maybe",
   "improvement", "better", "optimize"]

/-- The `EmpathticCodeReviewer` class.  Its only instance state is the
OpenAI client created in `__init__`, modelled as a function taking the
system prompt and the user prompt of the chat completion and returning
either the response content or the message of a raised exception. -/
structure EmpathticCodeReviewer where
  client : String → String → Except String String

/-- `EmpathticCodeReviewer._assess_comment_severity`: count how many harsh
and how many neutral indicator keywords occur in the lowercased comment
(`sum(1 for indicator in ... if indicator in comment_lower)`) and compare. -/
def EmpathticCodeReviewer._assess_comment_severity
    (_self : EmpathticCodeReviewer) (comment : String) : String :=
  let comment_lower := pyLower comment
  let harsh_count := harsh_indicators.countP (fun indicator => strContains indicator comment_lower)
  let neutral_count := neutral_indicators.countP (fun indicator => strContains indicator comment_lower)
  if harsh_count > neutral_count then "harsh"
  else if neutral_count > harsh_count then "neutral"
  else "moderate"

/-- Documentation link appended when the comment mentions variables or naming. -/
def naming_link : String :=
  "[PEP 8 - Naming Conventions](https://peps.python.org/pep-0008/#naming-conventions)"

/-- Documentation link appended when the comment mentions efficiency,
performance or loops. -/
def performance_link : String :=
  "[Python Performance Tips](https://wiki.python.org/moin/PythonSpeed/PerformanceTips)"

/-- Documentation link appended when the comment mentions comprehensions. -/
def comprehension_link : String :=
  "[List Comprehensions - Python Documentation](https://docs.python.org/3/tutorial/datastructures.html#list-comprehensions)"

/-- Documentation link appended when the code snippet compares against
booleans with `==`. -/
def programming_recommendations_link : String :=
  "[PEP 8 - Programming Recommendations](https://peps.python.org/pep-0008/#programming-recommendations)"

/-- Documentation link appended when the comment mentions functions. -/
def docstring_link : String :=
  "[PEP 257 - Docstring Conventions](https://peps.python.org/pep-0257/)"

/-- `EmpathticCodeReviewer._get_relevant_resources`: sequentially append the
fixed documentation links whose trigger keywords occur in the lowercased
comment (or, for the PEP 8 programming-recommendations link, in the
lowercased code snippet). -/
def EmpathticCodeReviewer._get_relevant_resources
    (_self : EmpathticCodeReviewer) (comment code_snippet : String) : List String :=
  let comment_lower := pyLower comment
  let code_lower := pyLower code_snippet
  let resources : List String := []
  let resources := if strContains "variable" comment_lower || strContains "naming" comment_lower
    then resources ++ [naming_link] else resources
  let resources := if strContains "efficient" comment_lower || strContains "performance" comment_lower
      || strContains "loop" comment_lower
    then resources ++ [performance_link] else resources
  let resources := if strContains "comprehension" comment_lower
      || strContains "list comprehension" comment_lower
    then resources ++ [comprehension_link] else resources
  let resources := if strContains "== true" code_lower || strContains "== false" code_lower
    then resources ++ [programming_recommendations_link] else resources
  let resources := if strContains "function" comment_lower
    then resources ++ [docstring_link] else resources
  resources

/-- The fixed `base_prompt` of `_create_system_prompt`. -/
def base_prompt : String :=
  "You are a senior software engineer and mentor known for your empathetic and educational approach to code reviews. Your goal is to transform critical feedback into constructive, encouraging guidance that helps developers learn and grow.\n\nKey principles:\n1. Always start with something positive or encouraging\n2. Explain the 'why' behind suggestions with clear technical reasoning\n3. Provide concrete, improved code examples\n4. Use inclusive language that builds confidence\n5. Focus on learning opportunities rather than mistakes"

/-- The `severity_adjustments` dictionary of `_create_system_prompt`. -/
def severity_adjustments : List (String × String) :=
  [("harsh", " Pay special attention to softening harsh language and being extra encouraging. The original feedback may have been blunt or discouraging, so focus on building the developer's confidence while still conveying the technical improvement needed."),
   ("moderate", " Maintain a balanced, professional tone while being supportive and educational."),
   ("neutral", " The original feedback was already fairly neutral, so focus on making it more educational and adding the 'why' behind suggestions.")]

/-- Python's `dict.get(key, default)` on an association list. -/
def dictGetD (d : List (String × String)) (k dflt : String) : String :=
  match d.find? (fun p => p.1 == k) with
  | some p => p.2
  | none => dflt

/-- `EmpathticCodeReviewer._create_system_prompt`: the base prompt followed
by the adjustment for the given severity (empty for unknown labels). -/
def EmpathticCodeReviewer._create_system_prompt
    (_self : EmpathticCodeReviewer) (severity : String) : String :=
  base_prompt ++ dictGetD severity_adjustments severity ""

/-- The `user_prompt` f-string of `_generate_empathetic_review`, with the
code snippet and the `json.dumps(comments, indent=2)` rendering substituted. -/
def user_prompt_for (code_snippet : String) (comments : List String) : String :=
  "Please transform the following code review comments into empathetic, educational feedback. For each comment, provide:\n\n1. **Positive Rephrasing**: A gentle, encouraging version that maintains the technical point\n2. **The 'Why'**: Clear explanation of the underlying software principle (performance, readability, maintainability, etc.)\n3. **Suggested Improvement**: Concrete code example demonstrating the fix\n\nCode Snippet:\n```python\n"
  ++ code_snippet
  ++ "\n```\n\nOriginal Comments:\n"
  ++ jsonDumpsIndent2 comments
  ++ "\n\nFormat your response as markdown with a section for each comment using this structure:\n\n---\n### Analysis of Comment: \"[original comment]\"\n\n**Positive Rephrasing:** [encouraging version]\n\n**The 'Why':** [technical explanation]\n\n**Suggested Improvement:**\n```python\n[improved code]\n```\n\n[If applicable, add relevant resources or additional context]\n\n---\n\nAfter addressing all comments, add a \"Summary\" section with an encouraging overall assessment of the code and the developer's progress."

/-- `EmpathticCodeReviewer._generate_empathetic_review`: classify every
comment, take the overall severity with Python's
`max(severities, key=severities.count)`, build both prompts, call the chat
completion, and either strip the returned content or re-raise the API
failure as `Exception("Error generating review: ...")`.  The `none` branch
models the `ValueError` `max` raises on an empty list, which the
surrounding `try` does not catch. -/
def EmpathticCodeReviewer._generate_empathetic_review
    (self : EmpathticCodeReviewer) (code_snippet : String) (comments : List String) :
    Except String String :=
  let severities := comments.map self._assess_comment_severity
  match pyMax (fun s => severities.count s) severities with
  | none => Except.error "max() arg is an empty sequence"
  | some overall_severity =>
    let system_prompt := self._create_system_prompt overall_severity
    let user_prompt := user_prompt_for code_snippet comments
    match self.client system_prompt user_prompt with
    | Except.ok content => Except.ok (pyStrip content)
    | Except.error e => Except.error ("Error generating review: " ++ e)

/-- The `all_resources` list built in `_enhance_with_resources`: the
resources of every comment, concatenated in list order. -/
def all_resources (self : EmpathticCodeReviewer) (code_snippet : String)
    (comments : List String) : List String :=
  comments.flatMap (fun comment => self._get_relevant_resources comment code_snippet)

/-- The `unique_resources` list of `_enhance_with_resources`:
`list(dict.fromkeys(all_resources))`. -/
def unique_resources (self : EmpathticCodeReviewer) (code_snippet : String)
    (comments : List String) : List String :=
  pyDedup (all_resources self code_snippet comments)

/-- The `resource_section` string built in `_enhance_with_resources` from a
list of resource links. -/
def resource_section_for (resources : List String) : String :=
  "\n\n## Additional Resources\n\nFor further learning, consider reviewing these resources:\n\n"
  ++ String.join (resources.map (fun resource => "- " ++ resource ++ "\n"))

/-- `EmpathticCodeReviewer._enhance_with_resources`: append the resource
section when at least one resource was collected, otherwise return the
review content unchanged. -/
def EmpathticCodeReviewer._enhance_with_resources
    (self : EmpathticCodeReviewer) (review_content code_snippet : String)
    (comments : List String) : String :=
  if (unique_resources self code_snippet comments).isEmpty then review_content
  else review_content ++ resource_section_for (unique_resources self code_snippet comments)

/-- A Python value stored under `"review_comments"`: either a list (whose
items the program treats as comment strings) or some non-list value. -/
inductive PyVal where
  | pyList (items : List String)
  | pyOther

/-- The input dictionary of `generate_review_report`: each of the two keys
the function reads is either absent or present with a value. -/
structure InputData where
  code_snippet : Option String
  review_comments : Option PyVal

/-- `EmpathticCodeReviewer.generate_review_report`: validate the input
shape, generate the empathetic review, enhance it with resources, and
prepend the fixed report header; every exception escaping the `try` body is
re-raised as `Exception("Failed to generate review report: ...")`.  The
header literal below reproduces the characters actually present in the
source file (U+00F0 U+0178 U+201C, a mojibake rendering of the memo emoji). -/
def EmpathticCodeReviewer.generate_review_report
    (self : EmpathticCodeReviewer) (input_data : InputData) : Except String String :=
  let body : Except String String :=
    match input_data.code_snippet, input_data.review_comments with
    | none, _ => Except.error "Input must contain 'code_snippet' and 'review_comments' keys"
    | some _, none => Except.error "Input must contain 'code_snippet' and 'review_comments' keys"
    | some _code_snippet, some (PyVal.pyOther) =>
      Except.error "'review_comments' must be a non-empty list"
    | some _code_snippet, some (PyVal.pyList []) =>
      Except.error "'review_comments' must be a non-empty list"
    | some code_snippet, some (PyVal.pyList comments) =>
      match self._generate_empathetic_review code_snippet comments with
      | Except.error e => Except.error e
      | Except.ok review_content =>
        let enhanced_review := self._enhance_with_resources review_content code_snippet comments
        Except.ok ("# ðŸ“ Empathetic Code Review Report\n\n" ++ enhanced_review)
  match body with
  | Except.ok final_report => Except.ok final_report
  | Except.error e => Except.error ("Failed to generate review report: " ++ e)

/-- `parse_json_input`: run `json.loads` (modelled as an abstract decoder
passed as an argument, returning either the decoded value or the message of
a `json.JSONDecodeError`) and re-raise decoding failures as
`ValueError("Invalid JSON format: ...")`.  The decoded value is returned
without any further validation. -/
def parse_json_input {α : Type} (json_loads : String → Except String α)
    (json_string : String) : Except String α :=
  match json_loads json_string with
  | Except.ok data => Except.ok data
  | Except.error e => Except.error ("Invalid JSON format: " ++ e)

/-- A JSON value, the possible result of `json.loads` (numbers simplified
to integers; no claim inspects numeric values). -/
inductive JValue where
  | null
  | bool (b : Bool)
  | num (n : Int)
  | str (s : String)
  | arr (elems : List JValue)
  | obj (fields : List (String × JValue))

/-!  Helper lemmas about the modelled Python primitives. -/

theorem strContains_iff (needle haystack : String) :
    strContains needle haystack = true ↔ needle.toList <:+: haystack.toList := by
  simp [strContains]

theorem strContains_trans {a b s : String} (h1 : strContains a b = true)
    (h2 : strContains b s = true) : strContains a s = true := by
  rw [strContains_iff] at *
  exact h1.trans h2

theorem pyDedupAux_mem :
    ∀ (l seen : List String) (a : String),
      a ∈ pyDedupAux seen l ↔ a ∈ l ∧ a ∉ seen := by
  intro l
  induction l with
  | nil =>
    intro seen a
    simp [pyDedupAux]
  | cons x xs ih =>
    intro seen a
    by_cases hx : seen.contains x = true
    · rw [pyDedupAux, if_pos hx, ih seen a]
      constructor
      · rintro ⟨ha, hs⟩
        exact ⟨List.mem_cons_of_mem _ ha, hs⟩
      · rintro ⟨ha, hs⟩
        rcases List.mem_cons.mp ha with rfl | ha'
        · exact absurd (List.elem_iff.mp hx) hs
        · exact ⟨ha', hs⟩
    · rw [pyDedupAux, if_neg hx]
      simp only [List.mem_cons, ih (seen ++ [x]) a, List.mem_append,
        List.mem_singleton, List.mem_nil_iff, or_false]
      constructor
      · rintro (rfl | ⟨ha, hs⟩)
        · refine ⟨Or.inl rfl, fun hmem => hx (List.elem_iff.mpr hmem)⟩
        · exact ⟨Or.inr ha, fun hmem => hs (Or.inl hmem)⟩
      · rintro ⟨rfl | ha, hs⟩
        · exact Or.inl rfl
        · by_cases hax : a = x
          · exact Or.inl hax
          · exact Or.inr ⟨ha, fun hmem => hmem.elim hs hax⟩

theorem pyDedupAux_nodup :
    ∀ (l seen : List String), (pyDedupAux seen l).Nodup := by
  intro l
  induction l with
  | nil =>
    intro seen
    simp [pyDedupAux]
  | cons x xs ih =>
    intro seen
    by_cases hx : seen.contains x = true
    · rw [pyDedupAux, if_pos hx]
      exact ih seen
    · rw [pyDedupAux, if_neg hx]
      refine List.nodup_cons.mpr ⟨?_, ih (seen ++ [x])⟩
      intro hmem
      have h := (pyDedupAux_mem xs (seen ++ [x]) x).mp hmem
      exact h.2 (List.mem_append_right _ (List.mem_singleton.mpr rfl))

theorem pyDedup_mem (l : List String) (a : String) : a ∈ pyDedup l ↔ a ∈ l := by
  rw [pyDedup, pyDedupAux_mem]
  simp

theorem pyDedup_nodup (l : List String) : (pyDedup l).Nodup :=
  pyDedupAux_nodup l []

theorem pyDedup_eq_nil_iff (l : List String) : pyDedup l = [] ↔ l = [] := by
  cases l with
  | nil => simp [pyDedup, pyDedupAux]
  | cons x xs => simp [pyDedup, pyDedupAux]

theorem pyDedupAux_pairwise :
    ∀ (l seen : List String),
      (pyDedupAux seen l).Pairwise (fun a b => l.indexOf a < l.indexOf b) := by
  intro l
  induction l with
  | nil =>
    intro seen
    simp [pyDedupAux]
  | cons x xs ih =>
    intro seen
    by_cases hx : seen.contains x = true
    · rw [pyDedupAux, if_pos hx]
      refine List.Pairwise.imp_of_mem ?_ (ih seen)
      intro a b hma hmb hab
      have ha := (pyDedupAux_mem xs seen a).mp hma
      have hb := (pyDedupAux_mem xs seen b).mp hmb
      have hax : a ≠ x := fun h => ha.2 (h ▸ List.elem_iff.mp hx)
      have hbx : b ≠ x := fun h => hb.2 (h ▸ List.elem_iff.mp hx)
      rw [List.indexOf_cons_ne _ (Ne.symm hax), List.indexOf_cons_ne _ (Ne.symm hbx)]
      exact Nat.succ_lt_succ hab
    · rw [pyDedupAux, if_neg hx]
      refine List.pairwise_cons.mpr ⟨?_, ?_⟩
      · intro b hb
        have hbm := (pyDedupAux_mem xs (seen ++ [x]) b).mp hb
        have hbx : b ≠ x := fun h =>
          hbm.2 (h ▸ List.mem_append_right _ (List.mem_singleton.mpr rfl))
        rw [List.indexOf_cons_self, List.indexOf_cons_ne _ (Ne.symm hbx)]
        exact Nat.succ_pos _
      · refine List.Pairwise.imp_of_mem ?_ (ih (seen ++ [x]))
        intro a b hma hmb hab
        have ha := (pyDedupAux_mem xs (seen ++ [x]) a).mp hma
        have hb := (pyDedupAux_mem xs (seen ++ [x]) b).mp hmb
        have hax : a ≠ x := fun h =>
          ha.2 (h ▸ List.mem_append_right _ (List.mem_singleton.mpr rfl))
        have hbx : b ≠ x := fun h =>
          hb.2 (h ▸ List.mem_append_right _ (List.mem_singleton.mpr rfl))
        rw [List.indexOf_cons_ne _ (Ne.symm hax), List.indexOf_cons_ne _ (Ne.symm hbx)]
        exact Nat.succ_lt_succ hab

theorem pyDedup_pairwise (l : List String) :
    (pyDedup l).Pairwise (fun a b => l.indexOf a < l.indexOf b) :=
  pyDedupAux_pairwise l []

theorem pyMaxAux_key_le (key : String → Nat) :
    ∀ (l : List String) (b : String), key b ≤ key (pyMaxAux key b l) := by
  intro l
  induction l with
  | nil => intro b; exact Nat.le_refl _
  | cons y ys ih =>
    intro b
    rw [pyMaxAux]
    by_cases h : key y > key b
    · rw [if_pos h]
      exact Nat.le_of_lt (Nat.lt_of_lt_of_le h (ih y))
    · rw [if_neg h]
      exact ih b

theorem pyMaxAux_mem_le (key : String → Nat) :
    ∀ (l : List String) (b z : String), z ∈ l → key z ≤ key (pyMaxAux key b l) := by
  intro l
  induction l with
  | nil => intro b z hz; cases hz
  | cons y ys ih =>
    intro b z hz
    rw [pyMaxAux]
    rcases List.mem_cons.mp hz with rfl | hz'
    · by_cases h : key z > key b
      · rw [if_pos h]
        exact pyMaxAux_key_le key ys z
      · rw [if_neg h]
        exact Nat.le_trans (Nat.le_of_not_lt h) (pyMaxAux_key_le key ys b)
    · by_cases h : key y > key b
      · rw [if_pos h]; exact ih y z hz'
      · rw [if_neg h]; exact ih b z hz'

theorem pyMaxAux_first (key : String → Nat) :
    ∀ (l : List String) (b : String),
      pyMaxAux key b l = b ∨
      ∃ i, ∃ hi : i < l.length, l.get ⟨i, hi⟩ = pyMaxAux key b l ∧
        key b < key (pyMaxAux key b l) ∧
        ∀ j, ∀ hj : j < l.length, j < i → key (l.get ⟨j, hj⟩) < key (pyMaxAux key b l) := by
  intro l
  induction l with
  | nil => intro b; exact Or.inl rfl
  | cons y ys ih =>
    intro b
    rw [pyMaxAux]
    by_cases h : key y > key b
    · rw [if_pos h]
      rcases ih y with heq | ⟨i, hi, hget, hlt, hbound⟩
      · refine Or.inr ⟨0, Nat.succ_pos _, ?_, ?_, ?_⟩
        · simpa using heq.symm
        · rw [heq]; exact h
        · intro j hj hj0; cases hj0
      · refine Or.inr ⟨i + 1, Nat.succ_lt_succ hi, ?_, ?_, ?_⟩
        · simpa using hget
        · exact Nat.lt_trans h hlt
        · intro j hj hji
          cases j with
          | zero => simpa using hlt
          | succ k =>
            have hk : k < ys.length := Nat.lt_of_succ_lt_succ hj
            have hki : k < i := Nat.lt_of_succ_lt_succ hji
            simpa using hbound k hk hki
    · rw [if_neg h]
      rcases ih b with heq | ⟨i, hi, hget, hlt, hbound⟩
      · exact Or.inl heq
      · refine Or.inr ⟨i + 1, Nat.succ_lt_succ hi, ?_, ?_, ?_⟩
        · simpa using hget
        · exact hlt
        · intro j hj hji
          cases j with
          | zero =>
            simpa using Nat.lt_of_le_of_lt (Nat.le_of_not_lt h) hlt
          | succ k =>
            have hk : k < ys.length := Nat.lt_of_succ_lt_succ hj
            have hki : k < i := Nat.lt_of_succ_lt_succ hji
            simpa using hbound k hk hki

theorem pyMax_spec (key : String → Nat) (l : List String) (h : l ≠ []) :
    ∃ ov, pyMax key l = some ov ∧ (∀ z ∈ l, key z ≤ key ov) ∧
      ∃ i, ∃ hi : i < l.length, l.get ⟨i, hi⟩ = ov ∧
        ∀ j, ∀ hj : j < l.length, j < i → key (l.get ⟨j, hj⟩) < key ov := by
  cases l with
  | nil => exact absurd rfl h
  | cons x xs =>
    refine ⟨pyMaxAux key x xs, rfl, ?_, ?_⟩
    · intro z hz
      rcases List.mem_cons.mp hz with rfl | hz'
      · exact pyMaxAux_key_le key xs z
      · exact pyMaxAux_mem_le key xs x z hz'
    · rcases pyMaxAux_first key xs x with heq | ⟨i, hi, hget, hlt, hbound⟩
      · refine ⟨0, Nat.succ_pos _, by simpa using heq.symm, ?_⟩
        intro j hj hj0; cases hj0
      · refine ⟨i + 1, Nat.succ_lt_succ hi, by simpa using hget, ?_⟩
        intro j hj hji
        cases j with
        | zero => simpa using hlt
        | succ k =>
          have hk : k < xs.length := Nat.lt_of_succ_lt_succ hj
          have hki : k < i := Nat.lt_of_succ_lt_succ hji
          simpa using hbound k hk hki

theorem strContains_comprehension_or (comment_lower : String) :
    (strContains "comprehension" comment_lower
      || strContains "list comprehension" comment_lower)
    = strContains "comprehension" comment_lower := by
  cases hc : strContains "comprehension" comment_lower with
  | true => simp
  | false =>
    cases hl : strContains "list comprehension" comment_lower with
    | false => simp
    | true =>
      have hcomp : strContains "comprehension" comment_lower = true :=
        strContains_trans (by decide) hl
      exact absurd hcomp (by simp [hc])

theorem get_relevant_resources_eq (self : EmpathticCodeReviewer)
    (comment code_snippet : String) :
    self._get_relevant_resources comment code_snippet =
      (if strContains "variable" (pyLower comment) || strContains "naming" (pyLower comment)
        then [naming_link] else [])
      ++ (if strContains "efficient" (pyLower comment) || strContains "performance" (pyLower comment)
            || strContains "loop" (pyLower comment)
        then [performance_link] else [])
      ++ (if strContains "comprehension" (pyLower comment)
        then [comprehension_link] else [])
      ++ (if strContains "== true" (pyLower code_snippet) || strContains "== false" (pyLower code_snippet)
        then [programming_recommendations_link] else [])
      ++ (if strContains "function" (pyLower comment)
        then [docstring_link] else []) := by
  simp only [EmpathticCodeReviewer._get_relevant_resources,
    strContains_comprehension_or]
  split_ifs <;> simp

theorem enhance_with_resources_eq (self : EmpathticCodeReviewer)
    (review_content code_snippet : String) (comments : List String) :
    self._enhance_with_resources review_content code_snippet comments =
      if unique_resources self code_snippet comments = [] then review_content
      else review_content ++ resource_section_for (unique_resources self code_snippet comments) := by
  unfold EmpathticCodeReviewer._enhance_with_resources
  by_cases h : unique_resources self code_snippet comments = []
  · simp [h]
  · simp [h, List.isEmpty_iff]

theorem generate_empathetic_review_eq (self : EmpathticCodeReviewer)
    (code_snippet : String) (comments : List String) (ov : String)
    (hov : pyMax (fun s => (comments.map self._assess_comment_severity).count s)
        (comments.map self._assess_comment_severity) = some ov) :
    self._generate_empathetic_review code_snippet comments =
      match self.client (self._create_system_prompt ov) (user_prompt_for code_snippet comments) with
      | Except.ok content => Except.ok (pyStrip content)
      | Except.error e => Except.error ("Error generating review: " ++ e) := by
  unfold EmpathticCodeReviewer._generate_empathetic_review
  simp only [hov]

theorem generate_review_report_run (self : EmpathticCodeReviewer) (input : InputData)
    (code : String) (comments : List String)
    (h1 : input.code_snippet = some code)
    (h2 : input.review_comments = some (PyVal.pyList comments))
    (h3 : comments ≠ []) :
    self.generate_review_report input =
      match self._generate_empathetic_review code comments with
      | Except.ok review_content =>
          Except.ok ("# ðŸ“ Empathetic Code Review Report\n\n"
            ++ self._enhance_with_resources review_content code comments)
      | Except.error e => Except.error ("Failed to generate review report: " ++ e) := by
  unfold EmpathticCodeReviewer.generate_review_report
  rw [h1, h2]
  cases comments with
  | nil => exact absurd rfl h3
  | cons c cs =>
    cases hgen : self._generate_empathetic_review code (c :: cs) with
    | ok r => simp [hgen]
    | error e => simp [hgen]

/-!  Concrete reviewer instances used to instantiate theorems with
hypotheses at explicit inputs. -/

/-- A reviewer whose modelled chat-completion call always raises an
exception with message `boom`. -/
def rev0 : EmpathticCodeReviewer := ⟨fun _ _ => Except.error "boom"⟩

/-- A reviewer whose modelled chat-completion call always succeeds with the
fixed content `All good.`. -/
def revOk : EmpathticCodeReviewer := ⟨fun _ _ => Except.ok "All good."⟩

/-!  Claim theorems. -/

/-- C2: `_assess_comment_severity` returns `"harsh"` exactly when strictly
more harsh indicators than neutral indicators occur as substrings of the
lowercased comment, `"neutral"` when strictly more neutral indicators
occur, and `"moderate"` when the two counts are equal; each indicator
contributes at most 1 to its count (the counts are bounded by the lengths
of the fixed indicator lists), so the result is always exactly one of the
three labels. -/
theorem assess_comment_severity_spec (self : EmpathticCodeReviewer) (comment : String) :
    ((harsh_indicators.filter (fun ind => strContains ind (pyLower comment))).length >
        (neutral_indicators.filter (fun ind => strContains ind (pyLower comment))).length →
      self._assess_comment_severity comment = "harsh")
    ∧ ((neutral_indicators.filter (fun ind => strContains ind (pyLower comment))).length >
        (harsh_indicators.filter (fun ind => strContains ind (pyLower comment))).length →
      self._assess_comment_severity comment = "neutral")
    ∧ ((harsh_indicators.filter (fun ind => strContains ind (pyLower comment))).length =
        (neutral_indicators.filter (fun ind => strContains ind (pyLower comment))).length →
      self._assess_comment_severity comment = "moderate")
    ∧ (harsh_indicators.filter (fun ind => strContains ind (pyLower comment))).length
        ≤ harsh_indicators.length
    ∧ (neutral_indicators.filter (fun ind => strContains ind (pyLower comment))).length
        ≤ neutral_indicators.length
    ∧ (self._assess_comment_severity comment = "harsh"
        ∨ self._assess_comment_severity comment = "neutral"
        ∨ self._assess_comment_severity comment = "moderate") := by
  have hunfold : self._assess_comment_severity comment =
      (if (harsh_indicators.filter (fun ind => strContains ind (pyLower comment))).length >
          (neutral_indicators.filter (fun ind => strContains ind (pyLower comment))).length
        then "harsh"
        else if (neutral_indicators.filter (fun ind => strContains ind (pyLower comment))).length >
            (harsh_indicators.filter (fun ind => strContains ind (pyLower comment))).length
          then "neutral" else "moderate") := by
    unfold EmpathticCodeReviewer._assess_comment_severity
    simp only [List.countP_eq_length_filter]
  refine ⟨?_, ?_, ?_, List.length_filter_le _ _, List.length_filter_le _ _, ?_⟩
  · intro h
    rw [hunfold, if_pos h]
  · intro h
    rw [hunfold, if_neg (by omega), if_pos h]
  · intro h
    rw [hunfold, if_neg (by omega), if_neg (by omega)]
  · rw [hunfold]
    split_ifs with h1 h2
    · exact Or.inl rfl
    · exact Or.inr (Or.inl rfl)
    · exact Or.inr (Or.inr rfl)

/-- C2 witness: on the comment `This is bad and wrong` two harsh indicators
and no neutral indicator fire, so the classifier answers `"harsh"`. -/
theorem assess_comment_severity_spec_witness :
    rev0._assess_comment_severity "This is bad and wrong" = "harsh" :=
  (assess_comment_severity_spec rev0 "This is bad and wrong").1 (by decide)

/-- C8: the severity classifier and the resource mapping are deterministic:
they depend only on their string arguments and the fixed keyword tables,
not on the reviewer instance (in particular not on its API client), so any
two instances agree on every input. -/
theorem classifier_and_resources_deterministic
    (self₁ self₂ : EmpathticCodeReviewer) (comment code_snippet : String) :
    self₁._assess_comment_severity comment = self₂._assess_comment_severity comment
    ∧ self₁._get_relevant_resources comment code_snippet
        = self₂._get_relevant_resources comment code_snippet :=
  ⟨rfl, rfl⟩

/-- The resource list exactly as claim C4 words it: the same five rules,
but with the links listed in the claim's order, which places the PEP 257
docstring link (trigger `function`) before the PEP 8
programming-recommendations link (trigger `== true`/`== false` in the code
snippet).  Written from the claim, for comparison with the code. -/
def claimed_resources_C4 (comment code_snippet : String) : List String :=
  (if strContains "variable" (pyLower comment) || strContains "naming" (pyLower comment)
    then [naming_link] else [])
  ++ (if strContains "efficient" (pyLower comment) || strContains "performance" (pyLower comment)
        || strContains "loop" (pyLower comment)
    then [performance_link] else [])
  ++ (if strContains "comprehension" (pyLower comment)
    then [comprehension_link] else [])
  ++ (if strContains "function" (pyLower comment)
    then [docstring_link] else [])
  ++ (if strContains "== true" (pyLower code_snippet) || strContains "== false" (pyLower code_snippet)
    then [programming_recommendations_link] else [])

/-- C4 counterexample: when a comment triggers the `function` rule and the
code snippet triggers the `== true` rule, the code emits the PEP 8
programming-recommendations link BEFORE the PEP 257 link, while the claim's
enumeration order puts it last; so the claim's order is wrong at this
input. -/
theorem get_relevant_resources_claim_order_false :
    rev0._get_relevant_resources "Add a docstring to this function." "if x == True: pass"
      = [programming_recommendations_link, docstring_link]
    ∧ claimed_resources_C4 "Add a docstring to this function." "if x == True: pass"
      = [docstring_link, programming_recommendations_link]
    ∧ rev0._get_relevant_resources "Add a docstring to this function." "if x == True: pass"
      ≠ claimed_resources_C4 "Add a docstring to this function." "if x == True: pass" := by
  refine ⟨by decide, by decide, by decide⟩

/-- C4 (amended): `_get_relevant_resources` returns exactly the fixed
documentation links whose triggers fire, each at most once, concatenated in
the code's check order: naming, performance, comprehension, then the PEP 8
programming-recommendations link (triggered by `== true`/`== false` in the
lowercased code snippet), and the PEP 257 docstring link last. -/
theorem get_relevant_resources_amended (self : EmpathticCodeReviewer)
    (comment code_snippet : String) :
    self._get_relevant_resources comment code_snippet =
      (if strContains "variable" (pyLower comment) || strContains "naming" (pyLower comment)
        then [naming_link] else [])
      ++ (if strContains "efficient" (pyLower comment) || strContains "performance" (pyLower comment)
            || strContains "loop" (pyLower comment)
        then [performance_link] else [])
      ++ (if strContains "comprehension" (pyLower comment)
        then [comprehension_link] else [])
      ++ (if strContains "== true" (pyLower code_snippet) || strContains "== false" (pyLower code_snippet)
        then [programming_recommendations_link] else [])
      ++ (if strContains "function" (pyLower comment)
        then [docstring_link] else []) :=
  get_relevant_resources_eq self comment code_snippet

/-- C9: the PEP 8 programming-recommendations rule reads only the code
snippet; when the lowercased snippet contains `== true` or `== false` and
the comment list is non-empty, the link is produced for every comment
whatever its text, and it occurs exactly once in the deduplicated resource
list rendered in the final report. -/
theorem programming_recommendations_once (self : EmpathticCodeReviewer)
    (code_snippet : String) (comments : List String)
    (hcode : strContains "== true" (pyLower code_snippet) = true
      ∨ strContains "== false" (pyLower code_snippet) = true)
    (hne : comments ≠ []) :
    (∀ comment ∈ comments,
      programming_recommendations_link ∈ self._get_relevant_resources comment code_snippet)
    ∧ (unique_resources self code_snippet comments).count programming_recommendations_link
        = 1 := by
  have hmem : ∀ comment : String,
      programming_recommendations_link ∈ self._get_relevant_resources comment code_snippet := by
    intro comment
    rw [get_relevant_resources_eq]
    have hc : (strContains "== true" (pyLower code_snippet)
        || strContains "== false" (pyLower code_snippet)) = true := by
      rcases hcode with h | h <;> simp [h]
    simp [hc]
  refine ⟨fun comment _ => hmem comment, ?_⟩
  have hnodup : (unique_resources self code_snippet comments).Nodup :=
    pyDedup_nodup (all_resources self code_snippet comments)
  have hin : programming_recommendations_link ∈ unique_resources self code_snippet comments := by
    simp only [unique_resources, pyDedup_mem, all_resources]
    cases comments with
    | nil => exact absurd rfl hne
    | cons c cs =>
      exact List.mem_flatMap.mpr ⟨c, List.mem_cons_self c cs, hmem c⟩
  have hle := (List.nodup_iff_count_le_one.mp hnodup) programming_recommendations_link
  have hge := List.count_pos_iff.mpr hin
  omega

/-- C9 witness: a snippet comparing with `== True` and a single comment that
mentions none of the keywords still yields the PEP 8
programming-recommendations link, exactly once. -/
theorem programming_recommendations_once_witness :
    (∀ comment ∈ (["hello"] : List String),
      programming_recommendations_link ∈ rev0._get_relevant_resources comment "if x == True: pass")
    ∧ (unique_resources rev0 "if x == True: pass" ["hello"]).count
        programming_recommendations_link = 1 :=
  programming_recommendations_once rev0 "if x == True: pass" ["hello"]
    (Or.inl (by decide)) (by decide)

/-- C5: the deduplicated resource list rendered in the Additional Resources
section contains each distinct link exactly once (it has no duplicates and
exactly the members of the concatenated per-comment resource lists), the
links are ordered by their first occurrence across the comments taken in
list order, and `_enhance_with_resources` appends the section built from
that list exactly when it is non-empty. -/
theorem additional_resources_distinct_ordered (self : EmpathticCodeReviewer)
    (review_content code_snippet : String) (comments : List String) :
    (unique_resources self code_snippet comments).Nodup
    ∧ (∀ r, r ∈ unique_resources self code_snippet comments
        ↔ r ∈ all_resources self code_snippet comments)
    ∧ (unique_resources self code_snippet comments).Pairwise
        (fun a b => (all_resources self code_snippet comments).indexOf a
          < (all_resources self code_snippet comments).indexOf b)
    ∧ self._enhance_with_resources review_content code_snippet comments =
        (if unique_resources self code_snippet comments = [] then review_content
         else review_content
           ++ resource_section_for (unique_resources self code_snippet comments)) :=
  ⟨pyDedup_nodup _, fun r => pyDedup_mem _ r, pyDedup_pairwise _,
    enhance_with_resources_eq self review_content code_snippet comments⟩

/-- C3: for every non-empty comment list, the system prompt sent to the
model is the fixed base prompt concatenated with the severity adjustment of
the overall severity; the overall severity is a per-comment label whose
count among the labels is maximal, and it sits at the earliest
maximal-count position, so on ties the label of the earliest comment wins. -/
theorem system_prompt_overall_severity (self : EmpathticCodeReviewer)
    (code_snippet : String) (comments : List String) (hne : comments ≠ []) :
    ∃ overall_severity,
      pyMax (fun s => (comments.map self._assess_comment_severity).count s)
          (comments.map self._assess_comment_severity) = some overall_severity
      ∧ (∀ label ∈ comments.map self._assess_comment_severity,
          (comments.map self._assess_comment_severity).count label
            ≤ (comments.map self._assess_comment_severity).count overall_severity)
      ∧ (∃ i, ∃ hi : i < (comments.map self._assess_comment_severity).length,
          (comments.map self._assess_comment_severity).get ⟨i, hi⟩ = overall_severity
          ∧ ∀ j, ∀ hj : j < (comments.map self._assess_comment_severity).length, j < i →
              (comments.map self._assess_comment_severity).count
                  ((comments.map self._assess_comment_severity).get ⟨j, hj⟩)
                < (comments.map self._assess_comment_severity).count overall_severity)
      ∧ self._generate_empathetic_review code_snippet comments =
          (match self.client (base_prompt ++ dictGetD severity_adjustments overall_severity "")
              (user_prompt_for code_snippet comments) with
           | Except.ok content => Except.ok (pyStrip content)
           | Except.error e => Except.error ("Error generating review: " ++ e)) := by
  have hmapne : comments.map self._assess_comment_severity ≠ [] := by
    intro h
    exact hne (List.map_eq_nil_iff.mp h)
  obtain ⟨ov, hov, hmax, hfirst⟩ := pyMax_spec _ _ hmapne
  refine ⟨ov, hov, hmax, hfirst, ?_⟩
  exact generate_empathetic_review_eq self code_snippet comments ov hov

/-- C3 witness: with the two comments `bad` (harsh) and `could` (neutral)
the counts tie, and the label of the earliest comment, `harsh`, is chosen. -/
theorem system_prompt_overall_severity_witness :
    ∃ overall_severity,
      pyMax (fun s => ((["bad", "could"].map rev0._assess_comment_severity)).count s)
          (["bad", "could"].map rev0._assess_comment_severity) = some overall_severity
      ∧ (∀ label ∈ ["bad", "could"].map rev0._assess_comment_severity,
          (["bad", "could"].map rev0._assess_comment_severity).count label
            ≤ (["bad", "could"].map rev0._assess_comment_severity).count overall_severity)
      ∧ (∃ i, ∃ hi : i < (["bad", "could"].map rev0._assess_comment_severity).length,
          (["bad", "could"].map rev0._assess_comment_severity).get ⟨i, hi⟩ = overall_severity
          ∧ ∀ j, ∀ hj : j < (["bad", "could"].map rev0._assess_comment_severity).length, j < i →
              (["bad", "could"].map rev0._assess_comment_severity).count
                  ((["bad", "could"].map rev0._assess_comment_severity).get ⟨j, hj⟩)
                < (["bad", "could"].map rev0._assess_comment_severity).count overall_severity)
      ∧ rev0._generate_empathetic_review "pass" ["bad", "could"] =
          (match rev0.client (base_prompt ++ dictGetD severity_adjustments overall_severity "")
              (user_prompt_for "pass" ["bad", "could"]) with
           | Except.ok content => Except.ok (pyStrip content)
           | Except.error e => Except.error ("Error generating review: " ++ e)) :=
  system_prompt_overall_severity rev0 "pass" ["bad", "could"] (by decide)

/-- C1: the two shape checks of `generate_review_report` are its only input
validation: a missing key or a `review_comments` value that is not a
non-empty list yields, for every reviewer instance (in particular whatever
the model client does, so before any model call), the corresponding wrapped
`ValueError`; any well-shaped input together with a succeeding client
produces a report. -/
theorem generate_review_report_validation (self : EmpathticCodeReviewer)
    (cs : Option String) (rc : Option PyVal) :
    ((cs = none ∨ rc = none) →
      self.generate_review_report ⟨cs, rc⟩ =
        Except.error "Failed to generate review report: Input must contain 'code_snippet' and 'review_comments' keys")
    ∧ (∀ code, cs = some code →
        (rc = some PyVal.pyOther ∨ rc = some (PyVal.pyList [])) →
        self.generate_review_report ⟨cs, rc⟩ =
          Except.error "Failed to generate review report: 'review_comments' must be a non-empty list")
    ∧ (∀ code comments content, cs = some code → rc = some (PyVal.pyList comments) →
        comments ≠ [] → self.client = (fun _ _ => Except.ok content) →
        self.generate_review_report ⟨cs, rc⟩ =
          Except.ok ("# ðŸ“ Empathetic Code Review Report\n\n"
            ++ self._enhance_with_resources (pyStrip content) code comments)) := by
  refine ⟨?_, ?_, ?_⟩
  · rintro (rfl | rfl)
    · simp [EmpathticCodeReviewer.generate_review_report]
    · cases cs <;> simp [EmpathticCodeReviewer.generate_review_report]
  · rintro code rfl (rfl | rfl) <;> simp [EmpathticCodeReviewer.generate_review_report]
  · rintro code comments content rfl rfl hne hcl
    rw [generate_review_report_run self ⟨some code, some (PyVal.pyList comments)⟩
      code comments rfl rfl hne]
    have hmapne : comments.map self._assess_comment_severity ≠ [] := by
      intro h
      exact hne (List.map_eq_nil_iff.mp h)
    obtain ⟨ov, hov, -, -⟩ := pyMax_spec _ _ hmapne
    rw [generate_empathetic_review_eq self code comments ov hov, hcl]

/-- C1 witness: a missing `code_snippet` key, a non-list `review_comments`
value, and a well-shaped input with a succeeding client, each behaving as
the validation theorem states. -/
theorem generate_review_report_validation_witness :
    rev0.generate_review_report ⟨none, some (PyVal.pyList ["x"])⟩
      = Except.error "Failed to generate review report: Input must contain 'code_snippet' and 'review_comments' keys"
    ∧ rev0.generate_review_report ⟨some "c", some PyVal.pyOther⟩
      = Except.error "Failed to generate review report: 'review_comments' must be a non-empty list"
    ∧ revOk.generate_review_report ⟨some "pass", some (PyVal.pyList ["hello"])⟩
      = Except.ok ("# ðŸ“ Empathetic Code Review Report\n\n"
          ++ revOk._enhance_with_resources (pyStrip "All good.") "pass" ["hello"]) :=
  ⟨(generate_review_report_validation rev0 none (some (PyVal.pyList ["x"]))).1 (Or.inl rfl),
   (generate_review_report_validation rev0 (some "c") (some PyVal.pyOther)).2.1
     "c" rfl (Or.inl rfl),
   (generate_review_report_validation revOk (some "pass") (some (PyVal.pyList ["hello"]))).2.2
     "pass" ["hello"] "All good." rfl rfl (by decide) rfl⟩

/-- C7: if the chat-completion call raises an exception with message `e`,
`generate_review_report` raises a generic exception whose message wraps `e`
first as `Error generating review: ...` and then as
`Failed to generate review report: ...`; no report is returned and the
client is consulted only through this single call. -/
theorem api_failure_propagation (self : EmpathticCodeReviewer)
    (cs : Option String) (rc : Option PyVal)
    (code : String) (comments : List String) (ov e : String)
    (h1 : cs = some code) (h2 : rc = some (PyVal.pyList comments))
    (hne : comments ≠ [])
    (hov : pyMax (fun s => (comments.map self._assess_comment_severity).count s)
        (comments.map self._assess_comment_severity) = some ov)
    (hc : self.client (self._create_system_prompt ov) (user_prompt_for code comments)
        = Except.error e) :
    self.generate_review_report ⟨cs, rc⟩ =
      Except.error ("Failed to generate review report: "
        ++ ("Error generating review: " ++ e)) := by
  subst h1 h2
  rw [generate_review_report_run self _ code comments rfl rfl hne,
    generate_empathetic_review_eq self code comments ov hov, hc]

/-- C7 witness: an always-failing client makes the report generation fail
with the doubly wrapped message, at a concrete well-shaped input. -/
theorem api_failure_propagation_witness :
    rev0.generate_review_report ⟨some "pass", some (PyVal.pyList ["bad"])⟩
      = Except.error ("Failed to generate review report: "
          ++ ("Error generating review: " ++ "boom")) :=
  api_failure_propagation rev0 (some "pass") (some (PyVal.pyList ["bad"]))
    "pass" ["bad"] "harsh" "boom" rfl rfl (by decide) (by decide) rfl

/-- C10 counterexample: on a concrete successful run, the report returned
by the code starts with the header characters actually written in the
source file (U+00F0 U+0178 U+201C, a mojibake rendering), not with the memo
emoji header `# 📝 Empathetic Code Review Report` quoted by the claim. -/
theorem report_header_claim_false :
    revOk.generate_review_report ⟨some "pass", some (PyVal.pyList ["hello"])⟩
      = Except.ok ("# ðŸ“ Empathetic Code Review Report\n\nAll good.")
    ∧ revOk.generate_review_report ⟨some "pass", some (PyVal.pyList ["hello"])⟩
      ≠ Except.ok ("# 📝 Empathetic Code Review Report\n\nAll good.") := by
  constructor
  · rfl
  · intro hcontra
    have h1 : revOk.generate_review_report ⟨some "pass", some (PyVal.pyList ["hello"])⟩
        = Except.ok ("# ðŸ“ Empathetic Code Review Report\n\nAll good.") := rfl
    rw [h1] at hcontra
    injection hcontra with h2
    exact absurd h2 (by decide)

/-- C10 (amended): for every successful call the report is the fixed header
line of the source file (`# ðŸ“ Empathetic Code Review Report`) followed by
the stripped model content verbatim; the Additional Resources section is
appended exactly when at least one resource rule fires, and no rule firing
is equivalent to every comment producing an empty resource list. -/
theorem report_structure (self : EmpathticCodeReviewer)
    (cs : Option String) (rc : Option PyVal)
    (code content : String) (comments : List String) (ov : String)
    (h1 : cs = some code) (h2 : rc = some (PyVal.pyList comments))
    (hne : comments ≠ [])
    (hov : pyMax (fun s => (comments.map self._assess_comment_severity).count s)
        (comments.map self._assess_comment_severity) = some ov)
    (hc : self.client (self._create_system_prompt ov) (user_prompt_for code comments)
        = Except.ok content) :
    self.generate_review_report ⟨cs, rc⟩ =
      Except.ok ("# ðŸ“ Empathetic Code Review Report\n\n" ++ pyStrip content
        ++ (if unique_resources self code comments = [] then ""
            else resource_section_for (unique_resources self code comments)))
    ∧ (unique_resources self code comments = []
        ↔ ∀ comment ∈ comments, self._get_relevant_resources comment code = []) := by
  constructor
  · subst h1 h2
    rw [generate_review_report_run self _ code comments rfl rfl hne,
      generate_empathetic_review_eq self code comments ov hov, hc]
    show Except.ok ("# ðŸ“ Empathetic Code Review Report\n\n"
        ++ self._enhance_with_resources (pyStrip content) code comments) = _
    rw [enhance_with_resources_eq]
    by_cases hu : unique_resources self code comments = []
    · simp [hu]
    · simp [hu, String.append_assoc]
  · simp only [unique_resources, pyDedup_eq_nil_iff, all_resources,
      List.flatMap_eq_nil_iff]

/-- C10 witness: a successful run at a concrete input, with no resource
rule firing, so the report is exactly the header plus the stripped content. -/
theorem report_structure_witness :
    (revOk.generate_review_report ⟨some "pass", some (PyVal.pyList ["hello"])⟩
      = Except.ok ("# ðŸ“ Empathetic Code Review Report\n\n" ++ pyStrip "All good."
          ++ (if unique_resources revOk "pass" ["hello"] = [] then ""
              else resource_section_for (unique_resources revOk "pass" ["hello"]))))
    ∧ (unique_resources revOk "pass" ["hello"] = []
        ↔ ∀ comment ∈ (["hello"] : List String),
            revOk._get_relevant_resources comment "pass" = []) :=
  report_structure revOk (some "pass") (some (PyVal.pyList ["hello"])) "pass" "All good."
    ["hello"] "moderate" rfl rfl (by decide) (by decide) rfl

/-- C6: `parse_json_input` returns the decoded value unchanged whenever the
JSON decoder succeeds (so a record with the two expected fields round-trips
untouched and no field validation happens here), and raises a `ValueError`
wrapping the decoder's message whenever decoding fails. -/
theorem parse_json_input_spec {α : Type} (json_loads : String → Except String α)
    (json_string : String) :
    (∀ v, json_loads json_string = Except.ok v →
      parse_json_input json_loads json_string = Except.ok v)
    ∧ (∀ e, json_loads json_string = Except.error e →
      parse_json_input json_loads json_string
        = Except.error ("Invalid JSON format: " ++ e)) := by
  constructor
  · intro v hv
    unfold parse_json_input
    rw [hv]
  · intro e he
    unfold parse_json_input
    rw [he]

/-- A toy JSON decoder used to instantiate `parse_json_input_spec`: it
decodes one concrete record with the two expected fields and reports a
decoding error on every other string. -/
def toy_json_loads : String → Except String JValue :=
  fun s =>
    if s = "\x7b\"code_snippet\": \"pass\", \"review_comments\": [\"ok\"]\x7d" then
      Except.ok (JValue.obj [("code_snippet", JValue.str "pass"),
        ("review_comments", JValue.arr [JValue.str "ok"])])
    else Except.error "Expecting value: line 1 column 1 (char 0)"

/-- C6 witness: the toy decoder's record passes through `parse_json_input`
unchanged, and a malformed string yields the wrapped `ValueError` message. -/
theorem parse_json_input_spec_witness :
    parse_json_input toy_json_loads "\x7b\"code_snippet\": \"pass\", \"review_comments\": [\"ok\"]\x7d"
      = Except.ok (JValue.obj [("code_snippet", JValue.str "pass"),
          ("review_comments", JValue.arr [JValue.str "ok"])])
    ∧ parse_json_input toy_json_loads "not json"
      = Except.error ("Invalid JSON format: "
          ++ "Expecting value: line 1 column 1 (char 0)") :=
  ⟨(parse_json_input_spec toy_json_loads
      "\x7b\"code_snippet\": \"pass\", \"review_comments\": [\"ok\"]\x7d").1 _ (by rfl),
   (parse_json_input_spec toy_json_loads "not json").2 _ (by rfl)⟩
